import Mathlib

/-!
Shallow embedding of the interface-generation engine of
`src/server/schemas-to-ts/interfaceBuilder.ts` (the `InterfaceBuilder` class),
together with theorems settling the specification claims about it.

Strings are modelled with Lean `String`; JavaScript string operations that the
source uses (`includes`, `endsWith`, `split`, `replace` (first occurrence),
`Array.prototype.join`, `[...new Set(xs)]`) are embedded as executable Lean
functions below.  Braces and single quotes inside generated text are written
with `\x7b`, `\x7d` and `\x27` escapes.
-/

/-- JS `String.prototype.includes` on char lists: does `s` contain `pat`? -/
def containsSubL (pat : List Char) : List Char → Bool
  | [] => pat.isEmpty
  | c :: cs => pat.isPrefixOf (c :: cs) || containsSubL pat cs

/-- JS `String.prototype.includes`. -/
def jsIncludes (s pat : String) : Bool := containsSubL pat.data s.data

/-- JS `String.prototype.endsWith`. -/
def jsEndsWith (s suffixStr : String) : Bool := List.isSuffixOf suffixStr.data s.data

/-- Char-list core of JS `String.prototype.replace` with a string pattern:
replace only the first occurrence of `pat` (an empty pattern matches at the
start, as in JS). -/
def replaceFirstL (pat rep : List Char) : List Char → List Char
  | [] => if pat.isEmpty then rep else []
  | c :: cs =>
    if pat.isPrefixOf (c :: cs) then rep ++ (c :: cs).drop pat.length
    else c :: replaceFirstL pat rep cs

/-- JS `String.prototype.replace` with a plain-string pattern (first occurrence only). -/
def jsReplaceFirst (s pat rep : String) : String := ⟨replaceFirstL pat.data rep.data s.data⟩

/-- Split a char list on a separator char (JS `String.prototype.split` with a
one-char separator). -/
def splitOnCharL (sep : Char) : List Char → List (List Char)
  | [] => [[]]
  | c :: cs =>
    let r := splitOnCharL sep cs
    if c = sep then [] :: r
    else
      match r with
      | [] => [[c]]
      | h :: t => (c :: h) :: t

/-- JS `s.split(sep)` for a one-character separator. -/
def jsSplit (s : String) (sep : Char) : List String :=
  (splitOnCharL sep s.data).map (fun l => ⟨l⟩)

/-- JS `s.split('.')[1]` (the source indexes the split result at 1; an absent
segment is embedded as the empty string). -/
def secondSegment (s : String) : String := (jsSplit s '.').getD 1 ""

/-- JS `Array.prototype.join(sep)`. -/
def jsJoin (sep : String) : List String → String
  | [] => ""
  | [x] => x
  | x :: xs => x ++ sep ++ jsJoin sep xs

/-- One insertion step of JS `Set` construction: append `x` unless present. -/
def insertIfNew {α : Type} [DecidableEq α] (acc : List α) (x : α) : List α :=
  if x ∈ acc then acc else acc ++ [x]

/-- JS `[...new Set(l)]`: deduplicate keeping the first occurrence of each
element, preserving first-seen order. -/
def jsSetDedup {α : Type} [DecidableEq α] (l : List α) : List α :=
  l.foldl insertIfNew []

/-- First index of `x` in a list (length of the list when absent), mirroring
JS `indexOf` / first-occurrence position. -/
def idxOf {α : Type} [DecidableEq α] (x : α) : List α → Nat
  | [] => 0
  | a :: l => if a = x then 0 else idxOf x l + 1

/-- `SchemaType` enum of `src/server/models/schemaType.ts` as used by the
source: the four generated variants. -/
inductive SchemaType : Type
  | standard
  | plain
  | noRelations
  | adminPanelLifeCycle
  deriving Repr, DecidableEq

/-- Modelled from the spec: `SchemaSource` (the spec's `originKind`,
`{ApiManagedRecord, ComponentRecord, PluginManagedRecord}`); the source file
only compares against `SchemaSource.Api`. The enum declaration itself lives in
`src/server/models/schemaSource.ts`, which is not part of the given sources. -/
inductive SchemaSource : Type
  | api
  | component
  | plugin
  deriving Repr, DecidableEq

/-- A raw attribute definition as the source reads it (the source types it as
`any` and accesses exactly these properties; absent JS properties are embedded
as `""` / `false` / `[]`, matching the truthiness / strict-equality checks the
source performs on them). -/
structure AttributeValue : Type where
  type : String
  relation : String := ""
  target : String := ""
  component : String := ""
  repeatable : Bool := false
  required : Bool := false
  multiple : Bool := false
  enum : List String := []
  deriving Repr, DecidableEq

/-- Modelled from the spec: the schema payload (`schemaInfo.schema`) with its
ordered attribute map and the localization flag
(`schema.pluginOptions?.i18n?.localized` truthiness); the `Schema` shape is
declared outside the given sources. -/
structure Schema : Type where
  attributes : List (String × AttributeValue)
  localized : Bool := false
  deriving Repr, DecidableEq

/-- Modelled from the spec: `SchemaInfo` (`src/server/models/schemaInfo.ts` is
not among the given sources); carries exactly the fields the source reads and
writes.  `schema := none` embeds a falsy `schemaInfo.schema`. -/
structure SchemaInfo : Type where
  schemaPath : String := ""
  destinationFolder : String := ""
  pascalName : String := ""
  source : SchemaSource := SchemaSource.component
  schema : Option Schema := none
  dependencies : List String := []
  interfaceAsText : String := ""
  plainInterfaceAsText : String := ""
  noRelationsInterfaceAsText : String := ""
  adminPanelLifeCycleRelationsInterfaceAsText : String := ""
  deriving Repr, DecidableEq

/-- The external collaborators the source imports (`pascal-case`, `path`,
`FileHelpers`, `CommonHelpers`, `prettier`): pure functions consumed by the
core, per the spec's external-interface section. -/
structure Externals : Type where
  pascalCase : String → String
  getRelativePath : String → String → String
  getFileNameFromSchema : SchemaInfo → Bool → String
  isWindows : Bool
  pathJoin : String → String → String
  prettierOptions : Bool
  prettierFormat : String → String

/-- Modelled from the spec: the plugin's name constant (imported by the source
from `../register`, which is not among the given sources); only its text value
appears in the generated header comment, and no claim depends on the value. -/
def pluginName : String := "schemas-to-ts"

/-- `InterfaceBuilder.isOptional` (lines 188-194): a field is optional unless
required, except `oneToMany` relations and repeatable components ("arrays are
never null"). -/
def isOptional (attributeValue : AttributeValue) : Bool :=
  if attributeValue.relation = "oneToMany" || attributeValue.repeatable then false
  else !attributeValue.required

/-- The variant suffix appended to the interface name (lines 197-204). -/
def variantSuffix : SchemaType → String
  | SchemaType.standard => ""
  | SchemaType.plain => "_Plain"
  | SchemaType.noRelations => "_NoRelations"
  | SchemaType.adminPanelLifeCycle => "_AdminPanelLifeCycle"

/-- The relation-branch target type (lines 228-235): any target containing
`::user` maps to the built-in `User`, otherwise the pascal-cased second
segment of the target; `_Plain` is appended for the Plain and
AdminPanelLifeCycle variants. -/
def relationPropertyType (ext : Externals) (target : String) (schemaType : SchemaType) : String :=
  let propertyType := if jsIncludes target "::user" then "User" else ext.pascalCase (secondSegment target)
  if schemaType = SchemaType.plain ∨ schemaType = SchemaType.adminPanelLifeCycle then
    propertyType ++ "_Plain"
  else propertyType

/-- The body of the per-attribute loop of `buildInterfaceText` (lines 218-407):
given the indentation, the attribute name and value and the requested variant,
produce the emitted property definition together with the dependency names
pushed onto `interfaceDependencies`, following the source's `if`/`else if`
chain in its exact order. -/
def attributeProperty (ext : Externals) (indentation attrName : String)
    (attributeValue : AttributeValue) (schemaType : SchemaType) : String × List String :=
  let propertyName := if isOptional attributeValue then attrName ++ "?" else attrName
  if attributeValue.type = "relation" then
    let propertyType := relationPropertyType ext attributeValue.target schemaType
    let isArray := jsEndsWith attributeValue.relation "ToMany"
    let bracketsIfArray := if isArray then "[]" else ""
    match schemaType with
    | SchemaType.standard =>
        (indentation ++ propertyName ++ ": \x7b data: " ++ propertyType ++ bracketsIfArray ++ " \x7d;\n",
         [propertyType])
    | SchemaType.plain =>
        (indentation ++ propertyName ++ ": " ++ propertyType ++ bracketsIfArray ++ ";\n",
         [propertyType])
    | SchemaType.noRelations =>
        (indentation ++ propertyName ++ ": number" ++ bracketsIfArray ++ ";\n",
         [propertyType])
    | SchemaType.adminPanelLifeCycle =>
        (indentation ++ propertyName ++ ": AdminPanelRelationPropertyModification<" ++ propertyType ++ ">" ++ bracketsIfArray ++ ";\n",
         [propertyType, "AdminPanelRelationPropertyModification"])
  else if attributeValue.type = "component" then
    let propertyType :=
      if attributeValue.target = "plugin::users-permissions.user" then "User"
      else ext.pascalCase (secondSegment attributeValue.component)
    let propertyType :=
      if schemaType = SchemaType.plain ∨ schemaType = SchemaType.adminPanelLifeCycle then
        propertyType ++ "_Plain"
      else propertyType
    let propertyType :=
      if schemaType = SchemaType.noRelations then propertyType ++ "_NoRelations" else propertyType
    let bracketsIfArray := if attributeValue.repeatable then "[]" else ""
    (indentation ++ propertyName ++ ": " ++ propertyType ++ bracketsIfArray ++ ";\n", [propertyType])
  else if attributeValue.type = "dynamiczone" then
    (indentation ++ propertyName ++ ": any;\n", [])
  else if attributeValue.type = "media" then
    let bracketsIfArray := if attributeValue.multiple then "[]" else ""
    match schemaType with
    | SchemaType.standard =>
        (indentation ++ propertyName ++ ": \x7b data: Media" ++ bracketsIfArray ++ " \x7d;\n", ["Media"])
    | SchemaType.plain =>
        (indentation ++ propertyName ++ ": Media" ++ bracketsIfArray ++ ";\n", ["Media"])
    | SchemaType.noRelations =>
        (indentation ++ propertyName ++ ": number" ++ bracketsIfArray ++ ";\n", ["Media"])
    | SchemaType.adminPanelLifeCycle =>
        (indentation ++ propertyName ++ ": AdminPanelRelationPropertyModification<Media>" ++ bracketsIfArray ++ ";\n",
         ["Media", "AdminPanelRelationPropertyModification"])
  else if attributeValue.type = "enumeration" then
    let enumOptions := jsJoin " | " (attributeValue.enum.map (fun v => "\x27" ++ v ++ "\x27"))
    (indentation ++ propertyName ++ ": " ++ enumOptions ++ ";\n", [])
  else if attributeValue.type = "string" ∨ attributeValue.type = "text" ∨
      attributeValue.type = "richtext" ∨ attributeValue.type = "email" ∨
      attributeValue.type = "password" ∨ attributeValue.type = "uid" then
    (indentation ++ propertyName ++ ": string;\n", [])
  else if attributeValue.type = "json" then
    (indentation ++ propertyName ++ ": any;\n", [])
  else if attributeValue.type = "password" then
    ("", [])
  else if attributeValue.type = "integer" ∨ attributeValue.type = "biginteger" ∨
      attributeValue.type = "decimal" ∨ attributeValue.type = "float" then
    (indentation ++ propertyName ++ ": number;\n", [])
  else if attributeValue.type = "date" ∨ attributeValue.type = "datetime" ∨
      attributeValue.type = "time" then
    (indentation ++ propertyName ++ ": Date;\n", [])
  else if attributeValue.type = "boolean" then
    (indentation ++ propertyName ++ ": boolean;\n", [])
  else
    (indentation ++ propertyName ++ ": any;\n", [])

/-- The indentation of the attribute lines (lines 211-215): four spaces inside
the `attributes` wrapper of an Api-source Standard interface, two otherwise. -/
def interfaceIndentation (schemaInfo : SchemaInfo) (schemaType : SchemaType) : String :=
  if schemaInfo.source = SchemaSource.api ∧ schemaType = SchemaType.standard then "    " else "  "

/-- `InterfaceBuilder.buildInterfaceText` (lines 196-426): the full interface
body for one variant, returning the text and the raw dependency names pushed
in emission order. -/
def buildInterfaceText (ext : Externals) (schemaInfo : SchemaInfo) (schemaType : SchemaType) :
    String × List String :=
  let interfaceName := schemaInfo.pascalName ++ variantSuffix schemaType
  let interfaceText := "export interface " ++ interfaceName ++ " \x7b\n"
  let interfaceText :=
    if schemaInfo.source = SchemaSource.api then interfaceText ++ "  id: number;\n" else interfaceText
  let indentation := interfaceIndentation schemaInfo schemaType
  let interfaceText :=
    if schemaInfo.source = SchemaSource.api ∧ schemaType = SchemaType.standard then
      interfaceText ++ "  attributes: \x7b\n"
    else interfaceText
  let sch := schemaInfo.schema.getD { attributes := [] }
  let folded := sch.attributes.foldl
    (fun acc attr =>
      let pd := attributeProperty ext indentation attr.1 attr.2 schemaType
      (acc.1 ++ pd.1, acc.2 ++ pd.2))
    (interfaceText, ([] : List String))
  let interfaceText := folded.1
  let interfaceText :=
    if sch.localized then
      interfaceText ++ indentation ++ "locale: string;\n" ++
        (if schemaType = SchemaType.standard then
          indentation ++ "localizations?: \x7b data: " ++ schemaInfo.pascalName ++ "[] \x7d;\n"
        else
          indentation ++ "localizations?: " ++ schemaInfo.pascalName ++ "[];\n")
    else interfaceText
  let interfaceText :=
    if schemaInfo.source = SchemaSource.api ∧ schemaType = SchemaType.standard then
      interfaceText ++ "  \x7d;\n"
    else interfaceText
  (interfaceText ++ "\x7d\n", folded.2)

/-- `InterfaceBuilder.getImportPath` (lines 428-441). -/
def getImportPath (ext : Externals) (importPath fileName : String) : String :=
  let result := if importPath = "./" then "./" ++ fileName else ext.pathJoin importPath fileName
  if ext.isWindows then ⟨result.data.map (fun c => if c = '\\' then '/' else c)⟩ else result

/-- The dependency-resolution loop of `convertToInterface` (lines 161-175):
each raw dependency name is stripped of the `_Plain` / `_NoRelations`
suffixes (JS `replace`: first occurrence), looked up in the registry by
`pascalName`, and rendered as an import statement; an unresolved name falls
back to the schema's own destination folder as the import path. -/
def dependencyImports (ext : Externals) (schemaInfo : SchemaInfo)
    (allSchemas : List SchemaInfo) (deps : List String) : List String :=
  deps.map (fun depType =>
    let dependencySchemaInfo := allSchemas.find? (fun x =>
      x.pascalName = jsReplaceFirst (jsReplaceFirst depType "_Plain" "") "_NoRelations" "")
    let importPath :=
      match dependencySchemaInfo with
      | some d =>
          getImportPath ext (ext.getRelativePath schemaInfo.destinationFolder d.destinationFolder)
            (ext.getFileNameFromSchema d false)
      | none => schemaInfo.destinationFolder
    "import \x7b " ++ depType ++ " \x7d from \x27" ++ importPath ++ "\x27;")

/-- The `schemaType`-directed field update at the end of `convertToInterface`
(lines 177-185). -/
def setInterfaceText (schemaInfo : SchemaInfo) (schemaType : SchemaType) (text : String) : SchemaInfo :=
  match schemaType with
  | SchemaType.standard => { schemaInfo with interfaceAsText := text }
  | SchemaType.plain => { schemaInfo with plainInterfaceAsText := text }
  | SchemaType.noRelations => { schemaInfo with noRelationsInterfaceAsText := text }
  | SchemaType.adminPanelLifeCycle =>
      { schemaInfo with adminPanelLifeCycleRelationsInterfaceAsText := text }

/-- Field projection matching `setInterfaceText`. -/
def getInterfaceText (schemaInfo : SchemaInfo) (schemaType : SchemaType) : String :=
  match schemaType with
  | SchemaType.standard => schemaInfo.interfaceAsText
  | SchemaType.plain => schemaInfo.plainInterfaceAsText
  | SchemaType.noRelations => schemaInfo.noRelationsInterfaceAsText
  | SchemaType.adminPanelLifeCycle => schemaInfo.adminPanelLifeCycleRelationsInterfaceAsText

/-- `InterfaceBuilder.convertToInterface` (lines 152-186): skip (return with
no mutation) when the schema payload is falsy; otherwise build the variant
body, append the resolved import statements to `dependencies`, and store the
body in the variant's text field. -/
def convertToInterface (ext : Externals) (schemaInfo : SchemaInfo)
    (allSchemas : List SchemaInfo) (schemaType : SchemaType) : SchemaInfo :=
  match schemaInfo.schema with
  | none => schemaInfo
  | some _ =>
    let r := buildInterfaceText ext schemaInfo schemaType
    let withDeps :=
      { schemaInfo with
        dependencies := schemaInfo.dependencies ++ dependencyImports ext schemaInfo allSchemas r.2 }
    setInterfaceText withDeps schemaType r.1

/-- `InterfaceBuilder.convertSchemaToInterfaces` (lines 18-27): generate the
Standard, Plain and NoRelations variants, the AdminPanelLifeCycle variant only
for Api-source schemas, then deduplicate `dependencies` via `[...new Set(…)]`. -/
def convertSchemaToInterfaces (ext : Externals) (schema : SchemaInfo)
    (schemas : List SchemaInfo) : SchemaInfo :=
  let s1 := convertToInterface ext schema schemas SchemaType.standard
  let s2 := convertToInterface ext s1 schemas SchemaType.plain
  let s3 := convertToInterface ext s2 schemas SchemaType.noRelations
  let s4 :=
    if schema.source = SchemaSource.api then
      convertToInterface ext s3 schemas SchemaType.adminPanelLifeCycle
    else s3
  { s4 with dependencies := jsSetDedup s4.dependencies }

/-- `InterfaceBuilder.buildInterfacesFileContent` (lines 29-46): header
comment, import statements (when any) with a blank separator, then the four
variant texts joined with newlines, with the FIRST `"\n\n"` occurrence
replaced by `"\n"` (JS `String.prototype.replace` with a string pattern), and
an external prettier pass when options are configured. -/
def buildInterfacesFileContent (ext : Externals) (schema : SchemaInfo) : String :=
  let interfacesFileContent := "// Interface automatically generated by " ++ pluginName ++ "\n\n"
  let interfacesFileContent :=
    if schema.dependencies.length > 0 then
      interfacesFileContent ++ jsJoin "\n" schema.dependencies ++ "\n\n"
    else interfacesFileContent
  let interfacesText := schema.interfaceAsText
  let interfacesText := interfacesText ++ "\n" ++ schema.plainInterfaceAsText
  let interfacesText := interfacesText ++ "\n" ++ schema.noRelationsInterfaceAsText
  let interfacesText := interfacesText ++ "\n" ++ schema.adminPanelLifeCycleRelationsInterfaceAsText
  let interfacesText := jsReplaceFirst interfacesText "\n\n" "\n"
  let interfacesFileContent := interfacesFileContent ++ interfacesText
  if ext.prettierOptions then ext.prettierFormat interfacesFileContent else interfacesFileContent

/-- A concrete instantiation of the external collaborators, used to evaluate
the engine on concrete inputs. -/
def ext0 : Externals where
  pascalCase := fun s => s
  getRelativePath := fun _ _ => "./"
  getFileNameFromSchema := fun s _ => s.pascalName
  isWindows := false
  pathJoin := fun a b => a ++ "/" ++ b
  prettierOptions := false
  prettierFormat := fun s => s

/-! ### Properties of `jsSetDedup` (the `[...new Set(xs)]` embedding) -/

section DedupLemmas

variable {α : Type} [DecidableEq α]

theorem mem_insertIfNew {acc : List α} {a x : α} :
    x ∈ insertIfNew acc a ↔ x ∈ acc ∨ x = a := by
  unfold insertIfNew
  split
  · rename_i h
    constructor
    · exact Or.inl
    · rintro (hx | rfl)
      · exact hx
      · exact h
  · simp

theorem foldl_insertIfNew_mem (l : List α) :
    ∀ (acc : List α) (x : α), x ∈ l.foldl insertIfNew acc ↔ x ∈ acc ∨ x ∈ l := by
  induction l with
  | nil => simp
  | cons a t ih =>
    intro acc x
    rw [List.foldl_cons, ih, mem_insertIfNew]
    simp only [List.mem_cons]
    tauto

theorem insertIfNew_nodup {acc : List α} (h : acc.Nodup) (a : α) :
    (insertIfNew acc a).Nodup := by
  unfold insertIfNew
  split
  · exact h
  · rename_i hna
    simp [List.nodup_append, h, hna]

theorem foldl_insertIfNew_nodup (l : List α) :
    ∀ acc : List α, acc.Nodup → (l.foldl insertIfNew acc).Nodup := by
  induction l with
  | nil => intro acc h; simpa using h
  | cons a t ih =>
    intro acc h
    rw [List.foldl_cons]
    exact ih _ (insertIfNew_nodup h a)

theorem foldl_insertIfNew_of_subset (l : List α) :
    ∀ acc : List α, (∀ x ∈ l, x ∈ acc) → l.foldl insertIfNew acc = acc := by
  induction l with
  | nil => intro acc _; rfl
  | cons a t ih =>
    intro acc h
    rw [List.foldl_cons]
    have ha : insertIfNew acc a = acc := if_pos (h a (by simp))
    rw [ha]
    exact ih acc (fun x hx => h x (by simp [hx]))

theorem foldl_insertIfNew_of_nodup (l : List α) :
    ∀ acc : List α, l.Nodup → (∀ x ∈ l, x ∉ acc) → l.foldl insertIfNew acc = acc ++ l := by
  induction l with
  | nil => intro acc _ _; simp
  | cons a t ih =>
    intro acc hn hd
    rw [List.foldl_cons]
    have ha : insertIfNew acc a = acc ++ [a] := if_neg (hd a (by simp))
    rw [ha, ih (acc ++ [a]) hn.of_cons]
    · simp
    · intro x hx
      simp only [List.mem_append, List.mem_singleton]
      rintro (hxa | rfl)
      · exact hd x (by simp [hx]) hxa
      · exact (List.nodup_cons.mp hn).1 hx

theorem jsSetDedup_mem {l : List α} {x : α} : x ∈ jsSetDedup l ↔ x ∈ l := by
  unfold jsSetDedup
  rw [foldl_insertIfNew_mem]
  simp

theorem jsSetDedup_nodup (l : List α) : (jsSetDedup l).Nodup :=
  foldl_insertIfNew_nodup l [] List.nodup_nil

theorem jsSetDedup_eq_self {l : List α} (h : l.Nodup) : jsSetDedup l = l := by
  unfold jsSetDedup
  rw [foldl_insertIfNew_of_nodup l [] h (by simp)]
  simp

theorem jsSetDedup_idem (l : List α) : jsSetDedup (jsSetDedup l) = jsSetDedup l :=
  jsSetDedup_eq_self (jsSetDedup_nodup l)

theorem jsSetDedup_append_absorb {l R : List α} (h : ∀ x ∈ R, x ∈ l) :
    jsSetDedup (jsSetDedup l ++ R) = jsSetDedup l := by
  calc jsSetDedup (jsSetDedup l ++ R)
      = R.foldl insertIfNew (jsSetDedup (jsSetDedup l)) := by
        rw [show jsSetDedup (jsSetDedup l ++ R) = (jsSetDedup l ++ R).foldl insertIfNew [] from rfl,
          List.foldl_append]
        rfl
    _ = R.foldl insertIfNew (jsSetDedup l) := by rw [jsSetDedup_idem]
    _ = jsSetDedup l :=
        foldl_insertIfNew_of_subset R (jsSetDedup l) (fun x hx => jsSetDedup_mem.mpr (h x hx))

/-- The elements of `l` that are not in `acc`, each at its first occurrence,
in order: the tail the `Set` insertion fold appends beyond `acc`. -/
def newElems (acc : List α) : List α → List α
  | [] => []
  | r :: t => if r ∈ acc then newElems acc t else r :: newElems (acc ++ [r]) t

theorem newElems_cons {acc : List α} {a : α} {t : List α} :
    newElems acc (a :: t) = if a ∈ acc then newElems acc t else a :: newElems (acc ++ [a]) t :=
  rfl

theorem foldl_insertIfNew_eq_append_newElems (l : List α) :
    ∀ acc : List α, l.foldl insertIfNew acc = acc ++ newElems acc l := by
  induction l with
  | nil => intro acc; simp [newElems]
  | cons a t ih =>
    intro acc
    rw [List.foldl_cons]
    by_cases h : a ∈ acc
    · rw [show insertIfNew acc a = acc from if_pos h, ih acc, newElems_cons, if_pos h]
    · rw [show insertIfNew acc a = acc ++ [a] from if_neg h, ih (acc ++ [a]), newElems_cons,
        if_neg h]
      simp

theorem mem_newElems (l : List α) :
    ∀ (acc : List α) (x : α), x ∈ newElems acc l → x ∈ l ∧ x ∉ acc := by
  induction l with
  | nil => intro acc x hx; simp [newElems] at hx
  | cons a t ih =>
    intro acc x hx
    rw [newElems_cons] at hx
    by_cases ha : a ∈ acc
    · rw [if_pos ha] at hx
      obtain ⟨h1, h2⟩ := ih acc x hx
      exact ⟨by simp [h1], h2⟩
    · rw [if_neg ha] at hx
      rcases List.mem_cons.mp hx with rfl | hx'
      · exact ⟨by simp, ha⟩
      · obtain ⟨h1, h2⟩ := ih (acc ++ [a]) x hx'
        refine ⟨by simp [h1], ?_⟩
        intro hxa
        exact h2 (by simp [hxa])

theorem idxOf_cons_self {a : α} {l : List α} : idxOf a (a :: l) = 0 := by
  simp [idxOf]

theorem idxOf_cons_ne {a x : α} {l : List α} (h : a ≠ x) :
    idxOf x (a :: l) = idxOf x l + 1 := by
  simp [idxOf, h]

theorem newElems_order (l : List α) :
    ∀ (acc : List α) (x y : α), x ∈ newElems acc l → y ∈ newElems acc l →
      idxOf x l < idxOf y l →
      idxOf x (newElems acc l) < idxOf y (newElems acc l) := by
  induction l with
  | nil => intro acc x y hx _ _; simp [newElems] at hx
  | cons a t ih =>
    intro acc x y hx hy hlt
    rw [newElems_cons] at hx hy ⊢
    by_cases ha : a ∈ acc
    · rw [if_pos ha] at hx hy ⊢
      -- head already seen: `newElems acc (a :: t) = newElems acc t`
      have hxa : x ≠ a := fun h => ((mem_newElems t acc x hx).2 (h ▸ ha)).elim
      have hya : y ≠ a := fun h => ((mem_newElems t acc y hy).2 (h ▸ ha)).elim
      rw [idxOf_cons_ne (fun h => hxa h.symm), idxOf_cons_ne (fun h => hya h.symm)] at hlt
      exact ih acc x y hx hy (by omega)
    · rw [if_neg ha] at hx hy ⊢
      by_cases hxa : x = a
      · subst hxa
        rw [idxOf_cons_self]
        have hyx : y ≠ x := by
          intro h
          subst h
          exact Nat.lt_irrefl _ hlt
        rw [idxOf_cons_ne (fun h => hyx h.symm)]
        omega
      · by_cases hya : y = a
        · subst hya
          rw [idxOf_cons_self] at hlt
          omega
        · have hx' : x ∈ newElems (acc ++ [a]) t := by
            rcases List.mem_cons.mp hx with h | h
            · exact (hxa h).elim
            · exact h
          have hy' : y ∈ newElems (acc ++ [a]) t := by
            rcases List.mem_cons.mp hy with h | h
            · exact (hya h).elim
            · exact h
          rw [idxOf_cons_ne (fun h => hxa h.symm), idxOf_cons_ne (fun h => hya h.symm)] at hlt
          rw [idxOf_cons_ne (fun h => hxa h.symm), idxOf_cons_ne (fun h => hya h.symm)]
          have := ih (acc ++ [a]) x y hx' hy' (by omega)
          omega

theorem jsSetDedup_eq_newElems (l : List α) : jsSetDedup l = newElems [] l := by
  unfold jsSetDedup
  rw [foldl_insertIfNew_eq_append_newElems]
  simp

theorem jsSetDedup_order {l : List α} {x y : α}
    (hx : x ∈ jsSetDedup l) (hy : y ∈ jsSetDedup l) (hlt : idxOf x l < idxOf y l) :
    idxOf x (jsSetDedup l) < idxOf y (jsSetDedup l) := by
  rw [jsSetDedup_eq_newElems] at hx hy ⊢
  exact newElems_order l [] x y hx hy hlt

end DedupLemmas

/-! ### Characterization of one generation pass -/

/-- The import statements contributed by one variant of one schema. -/
def generatedDeps (ext : Externals) (s : SchemaInfo) (reg : List SchemaInfo)
    (st : SchemaType) : List String :=
  dependencyImports ext s reg (buildInterfaceText ext s st).2

/-- The raw (pre-deduplication) import-statement emission list of one whole
generation pass over a schema, in emission order. -/
def passDeps (ext : Externals) (s : SchemaInfo) (reg : List SchemaInfo) : List String :=
  match s.schema with
  | none => []
  | some _ =>
      generatedDeps ext s reg SchemaType.standard ++ generatedDeps ext s reg SchemaType.plain ++
        generatedDeps ext s reg SchemaType.noRelations ++
        (if s.source = SchemaSource.api then
          generatedDeps ext s reg SchemaType.adminPanelLifeCycle
        else [])

theorem convertSchemaToInterfaces_of_schema_none {ext : Externals} {s : SchemaInfo}
    {reg : List SchemaInfo} (h : s.schema = none) :
    convertSchemaToInterfaces ext s reg = { s with dependencies := jsSetDedup s.dependencies } := by
  obtain ⟨p, d, pn, src, sc, dep, t1, t2, t3, t4⟩ := s
  simp only at h
  subst h
  by_cases hsrc : src = SchemaSource.api <;>
    simp [convertSchemaToInterfaces, convertToInterface, hsrc]

theorem convertSchemaToInterfaces_of_schema_some {ext : Externals} {s : SchemaInfo}
    {reg : List SchemaInfo} {sch : Schema} (h : s.schema = some sch) :
    convertSchemaToInterfaces ext s reg =
      { s with
        interfaceAsText := (buildInterfaceText ext s SchemaType.standard).1,
        plainInterfaceAsText := (buildInterfaceText ext s SchemaType.plain).1,
        noRelationsInterfaceAsText := (buildInterfaceText ext s SchemaType.noRelations).1,
        adminPanelLifeCycleRelationsInterfaceAsText :=
          if s.source = SchemaSource.api then
            (buildInterfaceText ext s SchemaType.adminPanelLifeCycle).1
          else s.adminPanelLifeCycleRelationsInterfaceAsText,
        dependencies := jsSetDedup (s.dependencies ++ passDeps ext s reg) } := by
  obtain ⟨p, d, pn, src, sc, dep, t1, t2, t3, t4⟩ := s
  simp only at h
  subst h
  have hb : ∀ (dep' : List String) (a b c e : String) (st : SchemaType),
      buildInterfaceText ext ⟨p, d, pn, src, some sch, dep', a, b, c, e⟩ st =
        buildInterfaceText ext ⟨p, d, pn, src, some sch, dep, t1, t2, t3, t4⟩ st :=
    fun _ _ _ _ _ _ => rfl
  have hd : ∀ (dep' : List String) (a b c e : String) (l : List String),
      dependencyImports ext ⟨p, d, pn, src, some sch, dep', a, b, c, e⟩ reg l =
        dependencyImports ext ⟨p, d, pn, src, some sch, dep, t1, t2, t3, t4⟩ reg l :=
    fun _ _ _ _ _ _ => rfl
  by_cases hsrc : src = SchemaSource.api
  · subst hsrc
    simp [convertSchemaToInterfaces, convertToInterface, setInterfaceText, passDeps,
      generatedDeps, hb, hd, List.append_assoc]
  · simp [convertSchemaToInterfaces, convertToInterface, setInterfaceText, passDeps,
      generatedDeps, hsrc, hb, hd, List.append_assoc]

/-- The dependency list after one pass, uniformly over both schema cases. -/
theorem convertSchemaToInterfaces_dependencies (ext : Externals) (s : SchemaInfo)
    (reg : List SchemaInfo) :
    (convertSchemaToInterfaces ext s reg).dependencies =
      jsSetDedup (s.dependencies ++ passDeps ext s reg) := by
  cases h : s.schema with
  | none =>
    rw [convertSchemaToInterfaces_of_schema_none h]
    simp [passDeps, h]
  | some sch =>
    rw [convertSchemaToInterfaces_of_schema_some h]

theorem schemaInfo_ext {a b : SchemaInfo}
    (h1 : a.schemaPath = b.schemaPath) (h2 : a.destinationFolder = b.destinationFolder)
    (h3 : a.pascalName = b.pascalName) (h4 : a.source = b.source) (h5 : a.schema = b.schema)
    (h6 : a.dependencies = b.dependencies) (h7 : a.interfaceAsText = b.interfaceAsText)
    (h8 : a.plainInterfaceAsText = b.plainInterfaceAsText)
    (h9 : a.noRelationsInterfaceAsText = b.noRelationsInterfaceAsText)
    (h10 : a.adminPanelLifeCycleRelationsInterfaceAsText =
      b.adminPanelLifeCycleRelationsInterfaceAsText) : a = b := by
  cases a
  cases b
  simp only [SchemaInfo.mk.injEq]
  exact ⟨h1, h2, h3, h4, h5, h6, h7, h8, h9, h10⟩

theorem convertSchemaToInterfaces_schema (ext : Externals) (s : SchemaInfo)
    (reg : List SchemaInfo) : (convertSchemaToInterfaces ext s reg).schema = s.schema := by
  cases h : s.schema with
  | none => rw [convertSchemaToInterfaces_of_schema_none h]; exact h
  | some sch => rw [convertSchemaToInterfaces_of_schema_some h]; exact h

/-- C3: running the whole generation pass a second time on the same schema
record and registry changes nothing: the record (hence every variant body),
the assembled document text, and the resolved-dependency list are identical. -/
theorem generationPassIdempotent (ext : Externals) (s : SchemaInfo) (reg : List SchemaInfo) :
    convertSchemaToInterfaces ext (convertSchemaToInterfaces ext s reg) reg =
      convertSchemaToInterfaces ext s reg ∧
    buildInterfacesFileContent ext
        (convertSchemaToInterfaces ext (convertSchemaToInterfaces ext s reg) reg) =
      buildInterfacesFileContent ext (convertSchemaToInterfaces ext s reg) ∧
    (convertSchemaToInterfaces ext (convertSchemaToInterfaces ext s reg) reg).dependencies =
      (convertSchemaToInterfaces ext s reg).dependencies := by
  have main : convertSchemaToInterfaces ext (convertSchemaToInterfaces ext s reg) reg =
      convertSchemaToInterfaces ext s reg := by
    cases h : s.schema with
    | none =>
      have h' : (convertSchemaToInterfaces ext s reg).schema = none := by
        rw [convertSchemaToInterfaces_schema]; exact h
      rw [convertSchemaToInterfaces_of_schema_none h', convertSchemaToInterfaces_of_schema_none h]
      simp [jsSetDedup_idem]
    | some sch =>
      have h' : (convertSchemaToInterfaces ext s reg).schema = some sch := by
        rw [convertSchemaToInterfaces_schema]; exact h
      rw [convertSchemaToInterfaces_of_schema_some h', convertSchemaToInterfaces_of_schema_some h]
      by_cases hsrc : s.source = SchemaSource.api
      · simp only [if_pos hsrc]
        apply schemaInfo_ext <;>
          first
          | rfl
          | exact jsSetDedup_append_absorb (fun x hx => List.mem_append_right _ hx)
      · simp only [if_neg hsrc]
        apply schemaInfo_ext <;>
          first
          | rfl
          | exact jsSetDedup_append_absorb (fun x hx => List.mem_append_right _ hx)
  exact ⟨main, by rw [main], by rw [main]⟩

/-! ### Concrete inputs used by witnesses and counterexamples -/

/-- A `relation` attribute with `manyToMany` cardinality and no `required` flag. -/
def attrManyToMany : AttributeValue :=
  { type := "relation", target := "api::tag.tag", relation := "manyToMany" }

/-- A `relation` attribute with `oneToOne` cardinality. -/
def attrOneToOne : AttributeValue :=
  { type := "relation", target := "api::tag.tag", relation := "oneToOne" }

/-- A required `password` attribute. -/
def attrPassword : AttributeValue := { type := "password", required := true }

/-- A schema whose only attribute is a required password. -/
def schPassword : Schema := { attributes := [("pwd", attrPassword)] }

/-- A non-Api schema record holding `schPassword`. -/
def sPassword : SchemaInfo :=
  { pascalName := "P", source := SchemaSource.component, schema := some schPassword }

/-- A schema with a single boolean attribute. -/
def schBool : Schema := { attributes := [("ok", { type := "boolean" })] }

/-- A component-source record holding `schBool`. -/
def sCompBool : SchemaInfo :=
  { pascalName := "Art", source := SchemaSource.component, schema := some schBool }

/-- An Api-source record holding `schBool`. -/
def sApiBool : SchemaInfo :=
  { pascalName := "Art", source := SchemaSource.api, schema := some schBool }

/-- An Api-source record with two relation attributes pointing at the same target. -/
def sDupRel : SchemaInfo :=
  { pascalName := "Dup", source := SchemaSource.api,
    schema := some { attributes := [("a", attrOneToOne), ("b", attrOneToOne)] } }

/-- A record whose schema payload is present but has an empty attribute map. -/
def sEmptyAttrs : SchemaInfo :=
  { pascalName := "Empty", source := SchemaSource.component,
    schema := some { attributes := [] } }

/-- A localized schema with no attributes, held by a component-source record. -/
def sLocC : SchemaInfo :=
  { pascalName := "Loc", source := SchemaSource.component,
    schema := some { attributes := [], localized := true } }

/-- An unrecognized-kind attribute. -/
def attrBlob : AttributeValue := { type := "blob" }

/-! ### Claim theorems -/

/-- C1 (code bug, evaluated at the failing input): a `password` attribute is
matched by the string/text branch of the attribute mapper (the source lists
`password` among the text kinds at line 340, making the dedicated
empty-output password branch at lines 361-363 unreachable), so a property
line `pwd: string;` IS emitted in all four variants, contradicting the claim
that no property line appears. -/
theorem passwordAttributeEmitsStringProperty :
    attributeProperty ext0 "  " "pwd" attrPassword SchemaType.standard = ("  pwd: string;\n", []) ∧
    attributeProperty ext0 "  " "pwd" attrPassword SchemaType.plain = ("  pwd: string;\n", []) ∧
    attributeProperty ext0 "  " "pwd" attrPassword SchemaType.noRelations = ("  pwd: string;\n", []) ∧
    attributeProperty ext0 "  " "pwd" attrPassword SchemaType.adminPanelLifeCycle =
      ("  pwd: string;\n", []) ∧
    (buildInterfaceText ext0 sPassword SchemaType.plain).1 =
      "export interface P_Plain \x7b\n  pwd: string;\n\x7d\n" :=
  ⟨rfl, rfl, rfl, rfl, rfl⟩

/-- C2 (code bug, evaluated at the failing input): `isOptional` tests only
`relation === 'oneToMany'`, so a non-required `manyToMany` relation is marked
optional (`tags?:`) in the Flattened (Plain) and RelationStripped
(NoRelations) variants, although it is emitted as an array ("arrays are never
null" per the source's own comment); a `oneToMany` relation is correctly
non-optional. -/
theorem manyToManyRelationMarkedOptional :
    isOptional attrManyToMany = true ∧
    isOptional { attrManyToMany with relation := "oneToMany" } = false ∧
    (attributeProperty ext0 "  " "tags" attrManyToMany SchemaType.plain).1 =
      "  tags?: tag_Plain[];\n" ∧
    (attributeProperty ext0 "  " "tags" attrManyToMany SchemaType.noRelations).1 =
      "  tags?: number[];\n" :=
  ⟨rfl, rfl, rfl, rfl⟩

/-- C4: after a generation pass starting from an empty dependency list, the
dependency list is exactly the first-seen deduplication of the raw emission
list: each emitted statement occurs exactly once, nothing else occurs, and
distinct statements keep their first-seen emission order. -/
theorem dependencyStatementsDedupedFirstSeen (ext : Externals) (s : SchemaInfo)
    (reg : List SchemaInfo) (h : s.dependencies = []) :
    (convertSchemaToInterfaces ext s reg).dependencies = jsSetDedup (passDeps ext s reg) ∧
    (∀ x ∈ passDeps ext s reg, ((convertSchemaToInterfaces ext s reg).dependencies).count x = 1) ∧
    (∀ x, x ∈ (convertSchemaToInterfaces ext s reg).dependencies ↔ x ∈ passDeps ext s reg) ∧
    (∀ x y, x ∈ (convertSchemaToInterfaces ext s reg).dependencies →
      y ∈ (convertSchemaToInterfaces ext s reg).dependencies →
      idxOf x (passDeps ext s reg) < idxOf y (passDeps ext s reg) →
      idxOf x ((convertSchemaToInterfaces ext s reg).dependencies) <
        idxOf y ((convertSchemaToInterfaces ext s reg).dependencies)) := by
  have hd : (convertSchemaToInterfaces ext s reg).dependencies =
      jsSetDedup (passDeps ext s reg) := by
    rw [convertSchemaToInterfaces_dependencies, h]
    rfl
  refine ⟨hd, ?_, ?_, ?_⟩
  · intro x hx
    rw [hd]
    exact List.count_eq_one_of_mem (jsSetDedup_nodup _) (jsSetDedup_mem.mpr hx)
  · intro x
    rw [hd]
    exact jsSetDedup_mem
  · intro x y hx hy hlt
    rw [hd] at hx hy ⊢
    exact jsSetDedup_order hx hy hlt

/-- C4 witness: on a concrete schema with two attributes referencing the same
target, the duplicated import statement survives exactly once and the
first-seen order of distinct statements is preserved. -/
theorem dependencyStatementsDedupedFirstSeenWitness :
    ((convertSchemaToInterfaces ext0 sDupRel []).dependencies).count
      "import \x7b tag \x7d from \x27\x27;" = 1 ∧
    idxOf "import \x7b tag \x7d from \x27\x27;"
        ((convertSchemaToInterfaces ext0 sDupRel []).dependencies) <
      idxOf "import \x7b tag_Plain \x7d from \x27\x27;"
        ((convertSchemaToInterfaces ext0 sDupRel []).dependencies) :=
  ⟨(dependencyStatementsDedupedFirstSeen ext0 sDupRel [] rfl).2.1 _ (by decide),
   (dependencyStatementsDedupedFirstSeen ext0 sDupRel [] rfl).2.2.2 _ _ (by decide) (by decide)
     (by decide)⟩

/-- C7 (amended): a conversion call skips (returns with the record unchanged)
exactly when the schema payload is absent; a record whose schema payload is
present — even with an empty attribute map — is generated normally and the
variant body is stored. -/
theorem skipExactlyWhenSchemaAbsent (ext : Externals) (s : SchemaInfo)
    (reg : List SchemaInfo) (st : SchemaType) :
    (s.schema = none → convertToInterface ext s reg st = s) ∧
    (∀ sch, s.schema = some sch →
      getInterfaceText (convertToInterface ext s reg st) st = (buildInterfaceText ext s st).1) := by
  constructor
  · intro h
    simp [convertToInterface, h]
  · intro sch h
    cases st <;> simp [convertToInterface, h, setInterfaceText, getInterfaceText]

/-- C7 witness: the skip branch at a concrete schema-less record, and normal
generation at a concrete record with an empty attribute map. -/
theorem skipExactlyWhenSchemaAbsentWitness :
    convertToInterface ext0 { pascalName := "N" } [] SchemaType.plain =
      { pascalName := "N" } ∧
    getInterfaceText (convertToInterface ext0 sEmptyAttrs [] SchemaType.plain) SchemaType.plain =
      (buildInterfaceText ext0 sEmptyAttrs SchemaType.plain).1 :=
  ⟨(skipExactlyWhenSchemaAbsent ext0 { pascalName := "N" } [] SchemaType.plain).1 rfl,
   (skipExactlyWhenSchemaAbsent ext0 sEmptyAttrs [] SchemaType.plain).2 _ rfl⟩

/-- C7 counterexample: a record with a present schema payload and NO attribute
definitions is not skipped — the conversion produces a (empty-bodied) variant
interface and changes the record, contradicting the claim that generation is
skipped for schemas with no attribute definitions. -/
theorem emptyAttributesSchemaStillGenerated :
    (convertToInterface ext0 sEmptyAttrs [] SchemaType.plain).plainInterfaceAsText =
      "export interface Empty_Plain \x7b\n\x7d\n" ∧
    convertToInterface ext0 sEmptyAttrs [] SchemaType.plain ≠ sEmptyAttrs :=
  ⟨rfl, by decide⟩

/-- C8: a relation whose declared target contains `::user` — in particular
the platform user entity `plugin::users-permissions.user`, however the
relation spells it — is mapped to the built-in `User` type with the variant's
`_Plain` suffix rule applied, and the mapper's emitted dependency for a
relation attribute is exactly that computed type name. -/
theorem userRelationMapsToUserType (ext : Externals) (st : SchemaType) :
    (∀ target, jsIncludes target "::user" = true →
      relationPropertyType ext target st =
        if st = SchemaType.plain ∨ st = SchemaType.adminPanelLifeCycle then "User_Plain"
        else "User") ∧
    (relationPropertyType ext "plugin::users-permissions.user" st =
      if st = SchemaType.plain ∨ st = SchemaType.adminPanelLifeCycle then "User_Plain"
      else "User") ∧
    (∀ ind n v, v.type = "relation" →
      (attributeProperty ext ind n v st).2.head? = some (relationPropertyType ext v.target st)) := by
  refine ⟨?_, ?_, ?_⟩
  · intro target h
    unfold relationPropertyType
    simp [h]
  · unfold relationPropertyType
    rw [show jsIncludes "plugin::users-permissions.user" "::user" = true from rfl]
    simp
  · intro ind n v hv
    cases st <;> simp [attributeProperty, hv]

/-- C8 witness: the platform user entity target, evaluated in the Plain and
Standard variants. -/
theorem userRelationMapsToUserTypeWitness :
    relationPropertyType ext0 "plugin::users-permissions.user" SchemaType.plain = "User_Plain" ∧
    relationPropertyType ext0 "plugin::users-permissions.user" SchemaType.standard = "User" ∧
    (attributeProperty ext0 "  " "author"
        { type := "relation", target := "plugin::users-permissions.user", relation := "manyToOne" }
        SchemaType.standard).2.head? =
      some (relationPropertyType ext0 "plugin::users-permissions.user" SchemaType.standard) := by
  refine ⟨?_, ?_, ?_⟩
  · have h := (userRelationMapsToUserType ext0 SchemaType.plain).1 "plugin::users-permissions.user" rfl
    simpa using h
  · have h := (userRelationMapsToUserType ext0 SchemaType.standard).1 "plugin::users-permissions.user" rfl
    simpa using h
  · exact (userRelationMapsToUserType ext0 SchemaType.standard).2.2 "  " "author" _ rfl

/-- The attribute kinds the source's `if`/`else if` chain recognizes. -/
def recognizedAttributeTypes : List String :=
  ["relation", "component", "dynamiczone", "media", "enumeration", "string", "text", "richtext",
    "email", "password", "uid", "json", "integer", "biginteger", "decimal", "float", "date",
    "datetime", "time", "boolean"]

/-- C9: the attribute mapper is total: any attribute whose kind matches no
recognized kind falls through to the final `else` and is emitted as an
`any`-typed property (with the usual optionality marker), with no
dependencies and no failure. -/
theorem unknownAttributeKindMapsToAny (ext : Externals) (ind n : String)
    (v : AttributeValue) (st : SchemaType) (h : v.type ∉ recognizedAttributeTypes) :
    attributeProperty ext ind n v st =
      (ind ++ (if isOptional v then n ++ "?" else n) ++ ": any;\n", []) := by
  simp only [recognizedAttributeTypes, List.mem_cons, List.not_mem_nil, or_false] at h
  push_neg at h
  obtain ⟨h1, h2, h3, h4, h5, h6, h7, h8, h9, h10, h11, h12, h13, h14, h15, h16, h17, h18, h19,
    h20⟩ := h
  simp [attributeProperty, h1, h2, h3, h4, h5, h6, h7, h8, h9, h10, h11, h12, h13, h14, h15, h16,
    h17, h18, h19, h20]

/-- C9 witness: a `blob`-kind attribute maps to an optional `any` property. -/
theorem unknownAttributeKindMapsToAnyWitness :
    attributeProperty ext0 "  " "x" attrBlob SchemaType.plain =
      ("  " ++ (if isOptional attrBlob then "x" ++ "?" else "x") ++ ": any;\n", []) :=
  unknownAttributeKindMapsToAny ext0 "  " "x" attrBlob SchemaType.plain (by decide)

/-- C10: for a schema record with a schema payload, one pass stores generated
Wire, Flattened and RelationStripped bodies always, and stores the
AdminPanelLifeCycle (Mutation) body exactly when the record's source is Api;
a non-Api record's mutation text field is left untouched. -/
theorem adminPanelVariantOnlyForApiSource (ext : Externals) (s : SchemaInfo)
    (reg : List SchemaInfo) (sch : Schema) (h : s.schema = some sch) :
    (s.source ≠ SchemaSource.api →
      (convertSchemaToInterfaces ext s reg).adminPanelLifeCycleRelationsInterfaceAsText =
        s.adminPanelLifeCycleRelationsInterfaceAsText) ∧
    (s.source = SchemaSource.api →
      (convertSchemaToInterfaces ext s reg).adminPanelLifeCycleRelationsInterfaceAsText =
        (buildInterfaceText ext s SchemaType.adminPanelLifeCycle).1) ∧
    (convertSchemaToInterfaces ext s reg).interfaceAsText =
      (buildInterfaceText ext s SchemaType.standard).1 ∧
    (convertSchemaToInterfaces ext s reg).plainInterfaceAsText =
      (buildInterfaceText ext s SchemaType.plain).1 ∧
    (convertSchemaToInterfaces ext s reg).noRelationsInterfaceAsText =
      (buildInterfaceText ext s SchemaType.noRelations).1 := by
  rw [convertSchemaToInterfaces_of_schema_some h]
  refine ⟨?_, ?_, rfl, rfl, rfl⟩
  · intro hne
    simp [hne]
  · intro hapi
    simp [hapi]

/-- C10 witness: the same schema payload under a component source (mutation
text untouched) and under an Api source (mutation body generated). -/
theorem adminPanelVariantOnlyForApiSourceWitness :
    (convertSchemaToInterfaces ext0 sCompBool []).adminPanelLifeCycleRelationsInterfaceAsText =
      sCompBool.adminPanelLifeCycleRelationsInterfaceAsText ∧
    (convertSchemaToInterfaces ext0 sApiBool []).adminPanelLifeCycleRelationsInterfaceAsText =
      (buildInterfaceText ext0 sApiBool SchemaType.adminPanelLifeCycle).1 :=
  ⟨(adminPanelVariantOnlyForApiSource ext0 sCompBool [] schBool rfl).1 (by decide),
   (adminPanelVariantOnlyForApiSource ext0 sApiBool [] schBool rfl).2.1 rfl⟩

/-! ### Decomposition of a variant body into header, field lines and footer -/

/-- Concatenation of a list of strings. -/
def strConcat : List String → String
  | [] => ""
  | x :: xs => x ++ strConcat xs

theorem strConcat_append (l1 l2 : List String) :
    strConcat (l1 ++ l2) = strConcat l1 ++ strConcat l2 := by
  induction l1 with
  | nil => simp [strConcat, String.empty_append]
  | cons x t ih => simp [strConcat, ih, String.append_assoc]

theorem foldl_prod_fst {α : Type} (f : α → String) (g : α → List String) :
    ∀ (l : List α) (t : String) (d : List String),
      (l.foldl (fun acc a => (acc.1 ++ f a, acc.2 ++ g a)) (t, d)).1 =
        t ++ strConcat (l.map f) := by
  intro l
  induction l with
  | nil => intro t d; simp [strConcat, String.append_empty]
  | cons a l ih =>
    intro t d
    rw [List.foldl_cons]
    show (l.foldl (fun acc a => (acc.1 ++ f a, acc.2 ++ g a)) (t ++ f a, d ++ g a)).1 =
      t ++ strConcat ((a :: l).map f)
    rw [ih (t ++ f a) (d ++ g a)]
    simp [strConcat, String.append_assoc]

/-- The fixed text emitted before the field lines of one variant body
(interface opening, identity field, `attributes` wrapper opening). -/
def interfaceHeaderText (s : SchemaInfo) (st : SchemaType) : String :=
  "export interface " ++ s.pascalName ++ variantSuffix st ++ " \x7b\n" ++
    (if s.source = SchemaSource.api then "  id: number;\n" else "") ++
    (if s.source = SchemaSource.api ∧ st = SchemaType.standard then "  attributes: \x7b\n"
     else "")

/-- The fixed text emitted after the field lines of one variant body. -/
def interfaceFooterText (s : SchemaInfo) (st : SchemaType) : String :=
  (if s.source = SchemaSource.api ∧ st = SchemaType.standard then "  \x7d;\n" else "") ++ "\x7d\n"

/-- The `locale` line appended for localized schemas (line 413). -/
def localeLine (s : SchemaInfo) (st : SchemaType) : String :=
  interfaceIndentation s st ++ "locale: string;\n"

/-- The `localizations` line appended for localized schemas (lines 414-418):
wrapper-shaped in the Standard variant, a plain array otherwise; the element
type is the bare `pascalName` in every variant. -/
def localizationsLine (s : SchemaInfo) (st : SchemaType) : String :=
  if st = SchemaType.standard then
    interfaceIndentation s st ++ "localizations?: \x7b data: " ++ s.pascalName ++ "[] \x7d;\n"
  else interfaceIndentation s st ++ "localizations?: " ++ s.pascalName ++ "[];\n"

/-- The (field name, emitted line) pairs of one variant body, in emission
order: one pair per attribute, then the localization pair when the schema is
localized. -/
def interfaceProperties (ext : Externals) (s : SchemaInfo) (st : SchemaType) :
    List (String × String) :=
  match s.schema with
  | none => []
  | some sch =>
      sch.attributes.map
        (fun a => (a.1, (attributeProperty ext (interfaceIndentation s st) a.1 a.2 st).1)) ++
        (if sch.localized then
          [("locale", localeLine s st), ("localizations", localizationsLine s st)]
        else [])

theorem buildInterfaceText_decompose (ext : Externals) (s : SchemaInfo) (st : SchemaType)
    (sch : Schema) (h : s.schema = some sch) :
    (buildInterfaceText ext s st).1 =
      interfaceHeaderText s st ++ strConcat ((interfaceProperties ext s st).map Prod.snd) ++
        interfaceFooterText s st := by
  have hcomp : ∀ (ind : String) (stx : SchemaType),
      (Prod.snd ∘ fun a : String × AttributeValue =>
        (a.1, (attributeProperty ext ind a.1 a.2 stx).1)) =
        (fun attr : String × AttributeValue => (attributeProperty ext ind attr.1 attr.2 stx).1) :=
    fun _ _ => rfl
  simp only [buildInterfaceText, h, Option.getD_some, interfaceProperties]
  rw [foldl_prod_fst]
  by_cases hl : sch.localized <;> by_cases hapi : s.source = SchemaSource.api <;>
    by_cases hstd : st = SchemaType.standard <;>
      simp [interfaceHeaderText, interfaceFooterText, localeLine, localizationsLine, strConcat,
        strConcat_append, List.map_append, hl, hapi, hstd, String.append_assoc,
        String.append_empty, String.empty_append, hcomp]

theorem lookup_append_right {β : Type} (A B : List (String × β)) (k : String)
    (h : ∀ p ∈ A, p.1 ≠ k) : (A ++ B).lookup k = B.lookup k := by
  induction A with
  | nil => rfl
  | cons p t ih =>
    obtain ⟨k', v⟩ := p
    have hp : (k == k') = false :=
      beq_eq_false_iff_ne.mpr (fun he => (h (k', v) (by simp)) he.symm)
    simp only [List.cons_append, List.lookup, hp]
    exact ih (fun q hq => h q (by simp [hq]))

/-- C6 (amended): for a localized schema none of whose attributes is itself
named `locale` or `localizations`, every variant body contains exactly one
`locale` field and exactly one `localizations` field; the Standard (Wire)
variant's `localizations` line is wrapper-shaped (`\x7b data: … \x7d`) while
the other three variants' lines are plain arrays; and in every variant the
`localizations` element type is the bare schema `pascalName` — no variant
suffix is applied.  The final conjunct ties the field list to the actual
generated body text. -/
theorem localizationFieldsPerVariant (ext : Externals) (s : SchemaInfo) (st : SchemaType)
    (sch : Schema) (h : s.schema = some sch) (hloc : sch.localized = true)
    (hnames : ∀ a ∈ sch.attributes, a.1 ≠ "locale" ∧ a.1 ≠ "localizations") :
    (interfaceProperties ext s st).countP (fun p => p.1 == "locale") = 1 ∧
    (interfaceProperties ext s st).countP (fun p => p.1 == "localizations") = 1 ∧
    (interfaceProperties ext s st).lookup "locale" =
      some (interfaceIndentation s st ++ "locale: string;\n") ∧
    (interfaceProperties ext s st).lookup "localizations" =
      some (if st = SchemaType.standard then
              interfaceIndentation s st ++ "localizations?: \x7b data: " ++ s.pascalName ++
                "[] \x7d;\n"
            else interfaceIndentation s st ++ "localizations?: " ++ s.pascalName ++ "[];\n") ∧
    (buildInterfaceText ext s st).1 =
      interfaceHeaderText s st ++ strConcat ((interfaceProperties ext s st).map Prod.snd) ++
        interfaceFooterText s st := by
  have hprops : interfaceProperties ext s st =
      sch.attributes.map
        (fun a => (a.1, (attributeProperty ext (interfaceIndentation s st) a.1 a.2 st).1)) ++
        [("locale", localeLine s st), ("localizations", localizationsLine s st)] := by
    simp [interfaceProperties, h, hloc]
  have hA : ∀ k : String, (∀ a ∈ sch.attributes, a.1 ≠ k) →
      (sch.attributes.map
        (fun a => (a.1, (attributeProperty ext (interfaceIndentation s st) a.1 a.2 st).1))).countP
        (fun p => p.1 == k) = 0 := by
    intro k hk
    refine List.countP_eq_zero.mpr ?_
    intro p hp
    obtain ⟨a, ha, rfl⟩ := List.mem_map.mp hp
    simp only [beq_iff_eq]
    exact hk a ha
  have hAmem : ∀ k : String, (∀ a ∈ sch.attributes, a.1 ≠ k) →
      ∀ p ∈ sch.attributes.map
        (fun a => (a.1, (attributeProperty ext (interfaceIndentation s st) a.1 a.2 st).1)),
        p.1 ≠ k := by
    intro k hk p hp
    obtain ⟨a, ha, rfl⟩ := List.mem_map.mp hp
    exact hk a ha
  refine ⟨?_, ?_, ?_, ?_, buildInterfaceText_decompose ext s st sch h⟩
  · rw [hprops, List.countP_append, hA "locale" (fun a ha => (hnames a ha).1)]
    simp [List.countP_cons, localeLine]
  · rw [hprops, List.countP_append, hA "localizations" (fun a ha => (hnames a ha).2)]
    simp [List.countP_cons]
  · rw [hprops, lookup_append_right _ _ _ (hAmem "locale" (fun a ha => (hnames a ha).1))]
    simp [List.lookup, localeLine]
  · rw [hprops, lookup_append_right _ _ _ (hAmem "localizations" (fun a ha => (hnames a ha).2))]
    simp [List.lookup, localizationsLine]

/-- A localized Api-source schema with one string attribute, for the C6 witness. -/
def sLocW : SchemaInfo :=
  { pascalName := "Doc", source := SchemaSource.api,
    schema := some { attributes := [("title", { type := "string" })], localized := true } }

/-- C6 witness: the amended localization property evaluated on a concrete
localized schema in the Standard variant. -/
theorem localizationFieldsPerVariantWitness :
    (interfaceProperties ext0 sLocW SchemaType.standard).countP (fun p => p.1 == "locale") = 1 ∧
    (interfaceProperties ext0 sLocW SchemaType.standard).lookup "localizations" =
      some (if SchemaType.standard = SchemaType.standard then
              interfaceIndentation sLocW SchemaType.standard ++ "localizations?: \x7b data: " ++
                sLocW.pascalName ++ "[] \x7d;\n"
            else interfaceIndentation sLocW SchemaType.standard ++ "localizations?: " ++
              sLocW.pascalName ++ "[];\n") :=
  ⟨(localizationFieldsPerVariant ext0 sLocW SchemaType.standard _ rfl rfl (by decide)).1,
   (localizationFieldsPerVariant ext0 sLocW SchemaType.standard _ rfl rfl (by decide)).2.2.2.1⟩

/-- C6 counterexample: on a concrete localized schema, the Flattened (Plain)
variant body names the interface `Loc_Plain` but types the `localizations`
elements with the bare name `Loc` — the claim's variant-suffixed element type
(`Loc_Plain`) appears nowhere in the body. -/
theorem flattenedLocalizationsUnsuffixed :
    (buildInterfaceText ext0 sLocC SchemaType.plain).1 =
      "export interface Loc_Plain \x7b\n  locale: string;\n  localizations?: Loc[];\n\x7d\n" ∧
    jsIncludes (buildInterfaceText ext0 sLocC SchemaType.plain).1 "Loc_Plain[]" = false :=
  ⟨rfl, rfl⟩

/-! ### Document assembly (C5) -/

/-- Modelled from the spec (amended): the assembled document is the header
comment, the resolved import statements with a blank separator when any
exist, then the four variant bodies in the fixed order Wire (Standard),
Flattened (Plain), RelationStripped (NoRelations), Mutation
(AdminPanelLifeCycle) joined by newlines — with only the FIRST double-newline
artifact of the body concatenation collapsed to a single newline. -/
def assembledDocument (schema : SchemaInfo) : String :=
  "// Interface automatically generated by " ++ pluginName ++ "\n\n" ++
    (if schema.dependencies.length > 0 then jsJoin "\n" schema.dependencies ++ "\n\n" else "") ++
    jsReplaceFirst
      (schema.interfaceAsText ++ "\n" ++ schema.plainInterfaceAsText ++ "\n" ++
        schema.noRelationsInterfaceAsText ++ "\n" ++
        schema.adminPanelLifeCycleRelationsInterfaceAsText)
      "\n\n" "\n"

/-- C5 (amended): without the external prettier pass, the assembler produces
exactly the spec-shaped document above: header, imports, then the variant
bodies in the fixed order Wire, Flattened, RelationStripped, Mutation, with
only the first double-newline artifact collapsed. -/
theorem assembledDocumentStructure (ext : Externals) (s : SchemaInfo)
    (h : ext.prettierOptions = false) :
    buildInterfacesFileContent ext s = assembledDocument s := by
  unfold buildInterfacesFileContent assembledDocument
  by_cases hdep : s.dependencies.length > 0 <;>
    simp [h, hdep, String.append_assoc, String.append_empty]

/-- C5 witness: the amended assembly equation evaluated on a concrete
generated record. -/
theorem assembledDocumentStructureWitness :
    buildInterfacesFileContent ext0 (convertSchemaToInterfaces ext0 sCompBool []) =
      assembledDocument (convertSchemaToInterfaces ext0 sCompBool []) :=
  assembledDocumentStructure ext0 (convertSchemaToInterfaces ext0 sCompBool []) rfl

/-- C5 counterexample: on a concrete three-variant record the assembled
output still contains an uncollapsed `\x7d\n\nexport` junction artifact (the
JS `replace` collapsed only the first one, as the also-present collapsed
`\x7d\nexport` junction shows), so not every double-blank-line artifact is
collapsed. -/
theorem doubleBlankLineNotAllCollapsed :
    jsIncludes (buildInterfacesFileContent ext0 (convertSchemaToInterfaces ext0 sCompBool []))
      "\x7d\n\nexport" = true ∧
    jsIncludes (buildInterfacesFileContent ext0 (convertSchemaToInterfaces ext0 sCompBool []))
      "\x7d\nexport" = true :=
  ⟨rfl, rfl⟩
